import Mathlib

/-!
Shallow embedding of the dnse-insight trading bot's risk/position engine,
signal aggregation and execution loop (src/core/risk_manager.py,
src/core/signal_engine.py, src/core/trading_bot.py), together with proofs
of the specification claims about them.

Numeric conventions: Python floats are modelled as exact rationals (ℚ),
Python ints as ℤ.  Python's `int(x)` conversion (truncation toward zero)
is modelled by `pyInt`; Python's integer floor division `//` is modelled
by `Int.fdiv`.  Python dicts keyed by symbol are modelled as association
lists with dict update/delete semantics (`insertPos`, `erasePos`).
Log-message strings are kept only where a function returns them
(interpolated values in reason strings are elided).
-/

namespace DNSE

/-- Python `int(q)`: truncation toward zero (`int()` of a float). -/
def pyInt (q : ℚ) : ℤ := if q < 0 then ⌈q⌉ else ⌊q⌋

/-- `OrderSide` from src/core/order_executor.py. -/
inductive OrderSide where
  | BUY
  | SELL
deriving DecidableEq, Repr

/-- `OrderType` from src/core/order_executor.py. -/
inductive OrderType where
  | LIMIT
  | MARKET
  | ATO
  | ATC
  | MTL
deriving DecidableEq, Repr

/-- `SignalType` from src/core/signal_engine.py. -/
inductive SignalType where
  | BUY
  | SELL
  | HOLD
  | CUTLOSS
deriving DecidableEq, Repr

/-- `SignalStrength` from src/core/signal_engine.py. -/
inductive SignalStrength where
  | WEAK
  | MODERATE
  | STRONG
deriving DecidableEq, Repr

/-- The `Position` dataclass from src/core/risk_manager.py
(`entry_time` is not modelled; no claim mentions it). -/
structure Position where
  symbol : String
  quantity : ℤ
  avg_entry_price : ℚ
  current_price : ℚ
  stop_loss_price : ℚ
  take_profit_price : Option ℚ
  pnl : ℚ
  pnl_percent : ℚ
deriving DecidableEq, Repr

/-- `Position.update_pnl`: sets `current_price` and recomputes `pnl` and
`pnl_percent`. -/
def Position.update_pnl (p : Position) (current_price : ℚ) : Position :=
  { p with
    current_price := current_price
    pnl := (current_price - p.avg_entry_price) * p.quantity
    pnl_percent := (current_price - p.avg_entry_price) / p.avg_entry_price }

/-- Construction of a `Position` (`__post_init__` calls
`update_pnl(current_price)`). -/
def Position.mk_open (symbol : String) (quantity : ℤ)
    (avg_entry_price current_price stop_loss_price : ℚ)
    (take_profit_price : Option ℚ) : Position :=
  Position.update_pnl
    { symbol := symbol
      quantity := quantity
      avg_entry_price := avg_entry_price
      current_price := current_price
      stop_loss_price := stop_loss_price
      take_profit_price := take_profit_price
      pnl := 0
      pnl_percent := 0 } current_price

/-- `Position.should_stop_loss`. -/
def Position.should_stop (p : Position) : Bool :=
  decide (p.current_price ≤ p.stop_loss_price)

/-- `Position.should_take_profit`. -/
def Position.should_take (p : Position) : Bool :=
  match p.take_profit_price with
  | none => false
  | some tp => decide (p.current_price ≥ tp)

/-- The risk parameters that `RiskManager.__init__` copies from
`utils/config.py` `settings`. -/
structure RiskConfig where
  max_position_size : ℚ
  max_positions : ℕ
  risk_per_trade : ℚ
  default_stop_loss_pct : ℚ
  max_drawdown_pct : ℚ
deriving DecidableEq, Repr

/-- The `Settings` defaults from src/utils/config.py. -/
def defaultConfig : RiskConfig :=
  { max_position_size := 100000000
    max_positions := 10
    risk_per_trade := 2/100
    default_stop_loss_pct := 3/100
    max_drawdown_pct := 10/100 }

/-- Lookup in the `positions` dict (first entry with the given key). -/
def lookupPos : List (String × Position) → String → Option Position
  | [], _ => none
  | q :: ps, s => if q.1 = s then some q.2 else lookupPos ps s

/-- Python dict assignment `positions[symbol] = position`: replace the
entry if the key is present, otherwise append. -/
def insertPos : List (String × Position) → String → Position →
    List (String × Position)
  | [], s, p => [(s, p)]
  | q :: ps, s, p => if q.1 = s then (s, p) :: ps else q :: insertPos ps s p

/-- Python `del positions[symbol]`: remove the entry with the given key. -/
def erasePos : List (String × Position) → String → List (String × Position)
  | [], _ => []
  | q :: ps, s => if q.1 = s then ps else q :: erasePos ps s

/-- The mutable state of `RiskManager` (initial_capital is a constant and
the config fields are held separately in `RiskConfig`). -/
structure RiskState where
  positions : List (String × Position)
  current_capital : ℚ
  max_drawdown : ℚ
  peak_capital : ℚ
deriving DecidableEq, Repr

/-- `RiskManager.__init__`: empty positions, 1 billion VND capital. -/
def initialState : RiskState :=
  { positions := []
    current_capital := 1000000000
    max_drawdown := 0
    peak_capital := 1000000000 }

/-- `RiskManager.calculate_position_size`.  `symbol` is used only for
logging in the source. -/
def calculate_position_size (cfg : RiskConfig) (st : RiskState)
    (symbol : String) (entry_price stop_loss_price : ℚ) : ℤ :=
  let _ := symbol
  let risk_amount := st.current_capital * cfg.risk_per_trade
  let risk_per_share := |entry_price - stop_loss_price|
  if risk_per_share = 0 then 0
  else
    let shares := pyInt (risk_amount / risk_per_share)
    let max_shares_by_value := pyInt (cfg.max_position_size / entry_price)
    let shares := min shares max_shares_by_value
    (Int.fdiv shares 100) * 100

/-- `calculate_position_size` with Python's division-by-zero failure made
explicit: returns `none` exactly when a division the source actually
performs has a zero divisor (the `risk_amount / risk_per_share` division
is guarded by the early return; the `max_position_size / entry_price`
division is not). -/
def calculate_position_size_checked (cfg : RiskConfig) (st : RiskState)
    (symbol : String) (entry_price stop_loss_price : ℚ) : Option ℤ :=
  let risk_per_share := |entry_price - stop_loss_price|
  if risk_per_share = 0 then some 0
  else if entry_price = 0 then none
  else some (calculate_position_size cfg st symbol entry_price stop_loss_price)

/-- `RiskManager.calculate_stop_loss_price`. -/
def calculate_stop_loss_price (cfg : RiskConfig) (entry_price : ℚ)
    (side : OrderSide) : ℚ :=
  match side with
  | OrderSide.BUY => entry_price * (1 - cfg.default_stop_loss_pct)
  | OrderSide.SELL => entry_price * (1 + cfg.default_stop_loss_pct)

/-- `RiskManager.can_open_position` (reason strings elide the interpolated
numbers). -/
def can_open_position (cfg : RiskConfig) (st : RiskState) (symbol : String)
    (position_value : ℚ) : Bool × String :=
  if st.positions.length ≥ cfg.max_positions then
    (false, "Maximum positions limit reached")
  else if (lookupPos st.positions symbol).isSome then
    (false, "Position already exists")
  else if position_value > cfg.max_position_size then
    (false, "Position value exceeds limit")
  else if position_value > st.current_capital then
    (false, "Insufficient capital")
  else if st.max_drawdown ≥ cfg.max_drawdown_pct then
    (false, "Maximum drawdown exceeded")
  else
    (true, "OK")

/-- `RiskManager.open_position`. -/
def open_position (cfg : RiskConfig) (st : RiskState) (symbol : String)
    (quantity : ℤ) (entry_price : ℚ) (stop_loss_price : Option ℚ)
    (take_profit_price : Option ℚ) : Option Position × RiskState :=
  let position_value : ℚ := quantity * entry_price
  if (can_open_position cfg st symbol position_value).1 then
    let slp := stop_loss_price.getD
      (calculate_stop_loss_price cfg entry_price OrderSide.BUY)
    let position := Position.mk_open symbol quantity entry_price entry_price
      slp take_profit_price
    (some position,
      { st with
        positions := insertPos st.positions symbol position
        current_capital := st.current_capital - position_value })
  else
    (none, st)

/-- `RiskManager.close_position` (`reason` is used only for logging). -/
def close_position (st : RiskState) (symbol : String) (exit_price : ℚ)
    (reason : String) : Bool × RiskState :=
  let _ := reason
  match lookupPos st.positions symbol with
  | none => (false, st)
  | some position =>
    let position := position.update_pnl exit_price
    let _ := position
    let exit_value : ℚ := position.quantity * exit_price
    let cc := st.current_capital + exit_value
    if cc > st.peak_capital then
      (true,
        { positions := erasePos st.positions symbol
          current_capital := cc
          max_drawdown := st.max_drawdown
          peak_capital := cc })
    else
      (true,
        { positions := erasePos st.positions symbol
          current_capital := cc
          max_drawdown := max st.max_drawdown ((st.peak_capital - cc) / st.peak_capital)
          peak_capital := st.peak_capital })

/-- `RiskManager.update_position_price` ("mark"). -/
def update_position_price (st : RiskState) (symbol : String)
    (current_price : ℚ) : RiskState :=
  match lookupPos st.positions symbol with
  | none => st
  | some position =>
    { st with
      positions := insertPos st.positions symbol
        (position.update_pnl current_price) }

/-- `RiskManager.update_trailing_stop`. -/
def update_trailing_stop (st : RiskState) (symbol : String)
    (trailing_pct : ℚ) : RiskState :=
  match lookupPos st.positions symbol with
  | none => st
  | some position =>
    let new_stop := position.current_price * (1 - trailing_pct)
    if new_stop > position.stop_loss_price then
      { st with
        positions := insertPos st.positions symbol
          { position with stop_loss_price := new_stop } }
    else
      st

/-- The argument tuple that the bot passes to
`order_executor.place_order`. -/
structure OrderReq where
  symbol : String
  side : OrderSide
  quantity : ℤ
  price : ℚ
  order_type : OrderType
deriving DecidableEq, Repr

/-- The order gateway, abstracted as a function deciding whether
`place_order` returns an order (`true`) or `None` (`false`).  Everything
past `place_order` is external I/O. -/
def Gateway : Type := OrderReq → Bool

/-- The order request built inside `RiskManager.check_stop_loss` for a
triggered position `position`. -/
def stopOrderReq (symbol : String) (position : Position) : OrderReq :=
  { symbol := symbol
    side := OrderSide.SELL
    quantity := position.quantity
    price := position.current_price
    order_type := OrderType.MARKET }

/-- `RiskManager.check_stop_loss`: on a triggered stop, place a market
SELL and close only if the gateway accepted the order.  First component
is the returned bool, second the resulting engine state. -/
def check_stop_loss (gw : Gateway) (st : RiskState) (symbol : String) :
    Bool × RiskState :=
  match lookupPos st.positions symbol with
  | none => (false, st)
  | some position =>
    if position.should_stop then
      if gw (stopOrderReq symbol position) then
        (true, (close_position st symbol position.current_price "Stop Loss").2)
      else
        (false, st)
    else
      (false, st)

/-- The order request built inside `TradingBot._execute_buy`. -/
def buyOrderReq (cfg : RiskConfig) (st : RiskState) (symbol : String)
    (entry_price : ℚ) : OrderReq :=
  { symbol := symbol
    side := OrderSide.BUY
    quantity := calculate_position_size cfg st symbol entry_price
      (calculate_stop_loss_price cfg entry_price OrderSide.BUY)
    price := entry_price
    order_type := OrderType.LIMIT }

/-- `TradingBot._execute_buy` (the notification and logging calls are
external I/O and not modelled).  Returns the resulting engine state. -/
def execute_buy (cfg : RiskConfig) (gw : Gateway) (st : RiskState)
    (symbol : String) (entry_price : ℚ) : RiskState :=
  let stop_loss_price := calculate_stop_loss_price cfg entry_price OrderSide.BUY
  let quantity := calculate_position_size cfg st symbol entry_price stop_loss_price
  if quantity = 0 then st
  else if (can_open_position cfg st symbol (quantity * entry_price)).1 then
    if gw (buyOrderReq cfg st symbol entry_price) then
      (open_position cfg st symbol quantity entry_price
        (some stop_loss_price) none).2
    else
      st
  else
    st

/-- The order request built inside `TradingBot._execute_sell` for an open
position `position`. -/
def sellOrderReq (symbol : String) (position : Position) (exit_price : ℚ) :
    OrderReq :=
  { symbol := symbol
    side := OrderSide.SELL
    quantity := position.quantity
    price := exit_price
    order_type := OrderType.LIMIT }

/-- `TradingBot._execute_sell`. -/
def execute_sell (gw : Gateway) (st : RiskState) (symbol : String)
    (exit_price : ℚ) (reason : String) : RiskState :=
  match lookupPos st.positions symbol with
  | none => st
  | some position =>
    if gw (sellOrderReq symbol position exit_price) then
      (close_position st symbol exit_price reason).2
    else
      st

/-- One engine operation, for stating invariants over arbitrary
interleavings of the Risk Engine's mutating calls. -/
inductive Op where
  | openPos (symbol : String) (quantity : ℤ) (entry_price : ℚ)
      (stop_loss_price take_profit_price : Option ℚ)
  | closePos (symbol : String) (exit_price : ℚ) (reason : String)
  | mark (symbol : String) (current_price : ℚ)
  | trail (symbol : String) (trailing_pct : ℚ)

/-- Apply one engine operation to the state. -/
def applyOp (cfg : RiskConfig) (st : RiskState) : Op → RiskState
  | Op.openPos s q e slp tpp => (open_position cfg st s q e slp tpp).2
  | Op.closePos s e r => (close_position st s e r).2
  | Op.mark s p => update_position_price st s p
  | Op.trail s pct => update_trailing_stop st s pct

/-- Run a sequence of engine operations from a state. -/
def runFrom (cfg : RiskConfig) (st : RiskState) (ops : List Op) : RiskState :=
  ops.foldl (applyOp cfg) st

/-- Run a sequence of engine operations from the freshly constructed
engine (empty positions map). -/
def run (cfg : RiskConfig) (ops : List Op) : RiskState :=
  runFrom cfg initialState ops

/-- Operations that only mark prices or ratchet the trailing stop. -/
def Op.isMarkOrTrail : Op → Prop
  | Op.mark _ _ => True
  | Op.trail _ _ => True
  | _ => False

/-- Operations other than `close_position`. -/
def Op.isClose : Op → Prop
  | Op.closePos _ _ _ => True
  | _ => False

/-- The signal identity used for deduplication in
`TradingBot._process_signal`: the source encodes
`f"{symbol}_{signal_type.value}_{int(time.time()/60)}"`; we model the
identity as the triple itself. -/
def SigId : Type := String × SignalType × ℤ

instance : DecidableEq SigId := by
  unfold SigId
  infer_instance

/-- `TradingBot._process_signal`.  Inputs: the processed-signals set, the
signal's symbol/type/strength, and the current minute bucket
`int(time.time()/60)`.  Output: the order-execution action taken (if
any) and the new processed-signals set.  The dispatch to
`_execute_buy`/`_execute_sell`/`_execute_cutloss` is abstracted as the
returned action. -/
def process_signal (processed : List SigId) (symbol : String)
    (signal_type : SignalType) (strength : SignalStrength) (minute : ℤ) :
    Option SignalType × List SigId :=
  let sid : SigId := (symbol, signal_type, minute)
  if sid ∈ processed then
    (none, processed)
  else if strength = SignalStrength.WEAK then
    (none, processed)
  else
    let action : Option SignalType :=
      match signal_type with
      | SignalType.BUY => some SignalType.BUY
      | SignalType.SELL => some SignalType.SELL
      | SignalType.CUTLOSS => some SignalType.CUTLOSS
      | SignalType.HOLD => none
    let processed := sid :: processed
    (action, processed.filter (fun s => minute - 60 < s.2.2))

/-- The vote-aggregation tail of `SignalEngine.generate_signal`
(src/core/signal_engine.py lines 337-405), as a function of the list of
per-strategy votes: final signal type and strength. -/
def determineSignal (signals : List SignalType) : SignalType × SignalStrength :=
  if signals = [] then
    (SignalType.HOLD, SignalStrength.WEAK)
  else
    let buy_count := signals.count SignalType.BUY
    let sell_count := signals.count SignalType.SELL
    let cutloss_count := signals.count SignalType.CUTLOSS
    if cutloss_count > 0 then
      (SignalType.CUTLOSS, SignalStrength.STRONG)
    else if buy_count > sell_count then
      (SignalType.BUY,
        if buy_count ≥ 3 then SignalStrength.STRONG
        else if buy_count ≥ 2 then SignalStrength.MODERATE
        else SignalStrength.WEAK)
    else if sell_count > buy_count then
      (SignalType.SELL,
        if sell_count ≥ 3 then SignalStrength.STRONG
        else if sell_count ≥ 2 then SignalStrength.MODERATE
        else SignalStrength.WEAK)
    else
      (SignalType.HOLD, SignalStrength.WEAK)

/-- Strategy 2 of `SignalEngine.generate_signal` (src/core/signal_engine.py
lines 293-300): the votes the Support/Resistance strategy appends, given
the strategy-enabled flag, the detected support level and the current
price.  The source is an if/elif chain:
`if current_price <= support * 1.002` appends BUY,
`elif current_price <= support * 0.98` appends SELL. -/
def supportResistanceVotes (enabled : Bool) (support current_price : ℚ) :
    List SignalType :=
  if enabled ∧ 0 < support then
    if current_price ≤ support * (1002/1000) then [SignalType.BUY]
    else if current_price ≤ support * (98/100) then [SignalType.SELL]
    else []
  else []

/-! ### Association-list lemmas for the positions map -/

@[simp]
lemma lookupPos_insertPos_self (ps : List (String × Position)) (s : String)
    (p : Position) : lookupPos (insertPos ps s p) s = some p := by
  induction ps with
  | nil => simp [insertPos, lookupPos]
  | cons q ps ih =>
    by_cases h : q.1 = s
    · simp [insertPos, h, lookupPos]
    · simp [insertPos, h, lookupPos, ih]

lemma lookupPos_insertPos_ne (ps : List (String × Position)) (s : String)
    (p : Position) (t : String) (h : t ≠ s) :
    lookupPos (insertPos ps s p) t = lookupPos ps t := by
  induction ps with
  | nil => simp [insertPos, lookupPos, Ne.symm h]
  | cons q ps ih =>
    by_cases hq : q.1 = s
    · simp [insertPos, lookupPos, hq, Ne.symm h]
    · by_cases ht : q.1 = t
      · simp [insertPos, lookupPos, hq, ht, h]
      · simp [insertPos, lookupPos, hq, ht, ih]

lemma lookupPos_isSome_iff (ps : List (String × Position)) (s : String) :
    (lookupPos ps s).isSome = true ↔ s ∈ ps.map Prod.fst := by
  induction ps with
  | nil => simp [lookupPos]
  | cons q ps ih =>
    by_cases h : q.1 = s
    · simp [lookupPos, h]
    · simp [lookupPos, h, ih, Ne.symm h]

lemma map_fst_insertPos_mem (ps : List (String × Position)) (s : String)
    (p : Position) (h : s ∈ ps.map Prod.fst) :
    (insertPos ps s p).map Prod.fst = ps.map Prod.fst := by
  induction ps with
  | nil => simp at h
  | cons q ps ih =>
    by_cases hq : q.1 = s
    · simp [insertPos, hq]
    · simp only [List.map_cons, List.mem_cons] at h
      rcases h with h | h
      · exact absurd h.symm hq
      · simp [insertPos, hq, ih h]

lemma map_fst_insertPos_not_mem (ps : List (String × Position)) (s : String)
    (p : Position) (h : s ∉ ps.map Prod.fst) :
    (insertPos ps s p).map Prod.fst = ps.map Prod.fst ++ [s] := by
  induction ps with
  | nil => simp [insertPos]
  | cons q ps ih =>
    simp only [List.map_cons, List.mem_cons] at h
    push_neg at h
    have hq : q.1 ≠ s := fun h' => h.1 h'.symm
    simp [insertPos, hq, ih h.2]

lemma map_fst_erasePos_sublist (ps : List (String × Position)) (s : String) :
    ((erasePos ps s).map Prod.fst).Sublist (ps.map Prod.fst) := by
  induction ps with
  | nil => simp [erasePos]
  | cons q ps ih =>
    by_cases hq : q.1 = s
    · simp only [erasePos, if_pos hq, List.map_cons]
      exact List.sublist_cons_self _ _
    · simp only [erasePos, if_neg hq, List.map_cons]
      exact ih.cons₂ _

lemma lookupPos_erasePos_ne (ps : List (String × Position)) (s t : String)
    (h : t ≠ s) : lookupPos (erasePos ps s) t = lookupPos ps t := by
  induction ps with
  | nil => simp [erasePos]
  | cons q ps ih =>
    by_cases hq : q.1 = s
    · simp [erasePos, lookupPos, hq, Ne.symm h]
    · by_cases ht : q.1 = t
      · simp [erasePos, lookupPos, hq, ht, h]
      · simp [erasePos, lookupPos, hq, ht, ih]

/-! ### Field-preservation facts for `Position.update_pnl` -/

@[simp]
lemma update_pnl_symbol (p : Position) (c : ℚ) :
    (p.update_pnl c).symbol = p.symbol := rfl

@[simp]
lemma update_pnl_quantity (p : Position) (c : ℚ) :
    (p.update_pnl c).quantity = p.quantity := rfl

@[simp]
lemma update_pnl_avg_entry_price (p : Position) (c : ℚ) :
    (p.update_pnl c).avg_entry_price = p.avg_entry_price := rfl

@[simp]
lemma update_pnl_stop_loss_price (p : Position) (c : ℚ) :
    (p.update_pnl c).stop_loss_price = p.stop_loss_price := rfl

@[simp]
lemma update_pnl_take_profit_price (p : Position) (c : ℚ) :
    (p.update_pnl c).take_profit_price = p.take_profit_price := rfl

@[simp]
lemma update_pnl_current_price (p : Position) (c : ℚ) :
    (p.update_pnl c).current_price = c := rfl

@[simp]
lemma update_pnl_pnl (p : Position) (c : ℚ) :
    (p.update_pnl c).pnl = (c - p.avg_entry_price) * p.quantity := rfl

@[simp]
lemma update_pnl_pnl_percent (p : Position) (c : ℚ) :
    (p.update_pnl c).pnl_percent = (c - p.avg_entry_price) / p.avg_entry_price := rfl

@[simp]
lemma mk_open_quantity (s : String) (q : ℤ) (e c slp : ℚ) (tp : Option ℚ) :
    (Position.mk_open s q e c slp tp).quantity = q := rfl

/-! ### Facts about the individual engine operations -/

lemma can_open_false_of_mem (cfg : RiskConfig) (st : RiskState) (sym : String)
    (pv : ℚ) (h : (lookupPos st.positions sym).isSome = true) :
    (can_open_position cfg st sym pv).1 = false := by
  unfold can_open_position
  split_ifs <;> simp_all

lemma can_open_true_lookup_none (cfg : RiskConfig) (st : RiskState)
    (sym : String) (pv : ℚ) (h : (can_open_position cfg st sym pv).1 = true) :
    lookupPos st.positions sym = none := by
  by_cases hl : (lookupPos st.positions sym).isSome = true
  · rw [can_open_false_of_mem cfg st sym pv hl] at h
    cases h
  · exact Option.not_isSome_iff_eq_none.mp hl

lemma open_position_of_mem (cfg : RiskConfig) (st : RiskState) (sym : String)
    (q : ℤ) (e : ℚ) (slp tpp : Option ℚ)
    (h : (lookupPos st.positions sym).isSome = true) :
    open_position cfg st sym q e slp tpp = (none, st) := by
  unfold open_position
  dsimp only
  rw [can_open_false_of_mem cfg st sym (q * e) h]
  simp

lemma open_position_spec (cfg : RiskConfig) (st : RiskState) (sym : String)
    (q : ℤ) (e : ℚ) (slp tpp : Option ℚ) (pos : Position) (st' : RiskState)
    (h : open_position cfg st sym q e slp tpp = (some pos, st')) :
    (can_open_position cfg st sym (q * e)).1 = true ∧
    pos = Position.mk_open sym q e e
      (slp.getD (calculate_stop_loss_price cfg e OrderSide.BUY)) tpp ∧
    st' = { st with
            positions := insertPos st.positions sym pos
            current_capital := st.current_capital - q * e } := by
  unfold open_position at h
  dsimp only at h
  split_ifs at h with hc
  · simp only [Prod.mk.injEq, Option.some.injEq] at h
    exact ⟨hc, h.1.symm, by rw [← h.2, h.1]⟩
  · simp at h

lemma close_position_none (st : RiskState) (sym : String) (e : ℚ) (r : String)
    (h : lookupPos st.positions sym = none) :
    close_position st sym e r = (false, st) := by
  unfold close_position
  rw [h]

lemma close_position_some (st : RiskState) (sym : String) (e : ℚ) (r : String)
    (pos : Position) (h : lookupPos st.positions sym = some pos) :
    close_position st sym e r =
      (true,
        if st.current_capital + pos.quantity * e > st.peak_capital then
          { positions := erasePos st.positions sym
            current_capital := st.current_capital + pos.quantity * e
            max_drawdown := st.max_drawdown
            peak_capital := st.current_capital + pos.quantity * e }
        else
          { positions := erasePos st.positions sym
            current_capital := st.current_capital + pos.quantity * e
            max_drawdown := max st.max_drawdown
              ((st.peak_capital - (st.current_capital + pos.quantity * e)) /
                st.peak_capital)
            peak_capital := st.peak_capital }) := by
  unfold close_position
  rw [h]
  simp only [update_pnl_quantity]
  split_ifs <;> rfl

lemma update_position_price_frame (st : RiskState) (sym : String) (p : ℚ) :
    (update_position_price st sym p).current_capital = st.current_capital ∧
    (update_position_price st sym p).peak_capital = st.peak_capital ∧
    (update_position_price st sym p).max_drawdown = st.max_drawdown := by
  unfold update_position_price
  cases lookupPos st.positions sym <;> exact ⟨rfl, rfl, rfl⟩

lemma update_position_price_lookup_self (st : RiskState) (sym : String)
    (p : ℚ) :
    lookupPos (update_position_price st sym p).positions sym =
      (lookupPos st.positions sym).map (fun pos => pos.update_pnl p) := by
  unfold update_position_price
  cases h : lookupPos st.positions sym with
  | none => simp [h]
  | some pos => simp [lookupPos_insertPos_self]

lemma update_position_price_lookup_ne (st : RiskState) (sym t : String)
    (p : ℚ) (h : t ≠ sym) :
    lookupPos (update_position_price st sym p).positions t =
      lookupPos st.positions t := by
  unfold update_position_price
  cases lookupPos st.positions sym with
  | none => rfl
  | some pos => exact lookupPos_insertPos_ne _ _ _ _ h

lemma update_trailing_stop_lookup_self (st : RiskState) (sym : String)
    (pct : ℚ) (pos : Position) (h : lookupPos st.positions sym = some pos) :
    lookupPos (update_trailing_stop st sym pct).positions sym =
      some (if pos.current_price * (1 - pct) > pos.stop_loss_price then
              { pos with stop_loss_price := pos.current_price * (1 - pct) }
            else pos) := by
  unfold update_trailing_stop
  rw [h]
  dsimp only
  split_ifs with hc
  · simp [lookupPos_insertPos_self]
  · exact h

lemma update_trailing_stop_lookup_ne (st : RiskState) (sym t : String)
    (pct : ℚ) (h : t ≠ sym) :
    lookupPos (update_trailing_stop st sym pct).positions t =
      lookupPos st.positions t := by
  unfold update_trailing_stop
  cases lookupPos st.positions sym with
  | none => rfl
  | some pos =>
    dsimp only
    split_ifs
    · exact lookupPos_insertPos_ne _ _ _ _ h
    · rfl

lemma update_trailing_stop_frame (st : RiskState) (sym : String) (pct : ℚ) :
    (update_trailing_stop st sym pct).current_capital = st.current_capital ∧
    (update_trailing_stop st sym pct).peak_capital = st.peak_capital ∧
    (update_trailing_stop st sym pct).max_drawdown = st.max_drawdown := by
  unfold update_trailing_stop
  cases lookupPos st.positions sym with
  | none => exact ⟨rfl, rfl, rfl⟩
  | some pos =>
    dsimp only
    split_ifs <;> exact ⟨rfl, rfl, rfl⟩

/-! ### Step lemmas over `applyOp` -/

lemma map_fst_update_position_price (st : RiskState) (s : String) (p : ℚ) :
    (update_position_price st s p).positions.map Prod.fst =
      st.positions.map Prod.fst := by
  unfold update_position_price
  cases hl : lookupPos st.positions s with
  | none => rfl
  | some pos =>
    dsimp only
    exact map_fst_insertPos_mem _ _ _
      (by rw [← lookupPos_isSome_iff, hl]; rfl)

lemma map_fst_update_trailing_stop (st : RiskState) (s : String) (pct : ℚ) :
    (update_trailing_stop st s pct).positions.map Prod.fst =
      st.positions.map Prod.fst := by
  unfold update_trailing_stop
  cases hl : lookupPos st.positions s with
  | none => rfl
  | some pos =>
    dsimp only
    split_ifs
    · exact map_fst_insertPos_mem _ _ _
        (by rw [← lookupPos_isSome_iff, hl]; rfl)
    · rfl

lemma nodup_applyOp (cfg : RiskConfig) (st : RiskState) (op : Op)
    (h : (st.positions.map Prod.fst).Nodup) :
    ((applyOp cfg st op).positions.map Prod.fst).Nodup := by
  cases op with
  | openPos s q e slp tpp =>
    show (((open_position cfg st s q e slp tpp).2.positions).map Prod.fst).Nodup
    unfold open_position
    dsimp only
    split_ifs with hc
    · have hnone := can_open_true_lookup_none cfg st s (q * e) hc
      have hmem : s ∉ st.positions.map Prod.fst := by
        rw [← lookupPos_isSome_iff]
        simp [hnone]
      dsimp only
      rw [map_fst_insertPos_not_mem _ _ _ hmem]
      simp [List.nodup_append, h, hmem]
    · exact h
  | closePos s e r =>
    show (((close_position st s e r).2.positions).map Prod.fst).Nodup
    cases hl : lookupPos st.positions s with
    | none => rw [close_position_none st s e r hl]; exact h
    | some pos =>
      rw [close_position_some st s e r pos hl]
      split_ifs <;> exact h.sublist (map_fst_erasePos_sublist _ _)
  | mark s p =>
    show (((update_position_price st s p).positions).map Prod.fst).Nodup
    rw [map_fst_update_position_price]
    exact h
  | trail s pct =>
    show (((update_trailing_stop st s pct).positions).map Prod.fst).Nodup
    rw [map_fst_update_trailing_stop]
    exact h

lemma nodup_runFrom (cfg : RiskConfig) (ops : List Op) (st : RiskState)
    (h : (st.positions.map Prod.fst).Nodup) :
    ((runFrom cfg st ops).positions.map Prod.fst).Nodup := by
  induction ops generalizing st with
  | nil => exact h
  | cons op ops ih => exact ih _ (nodup_applyOp cfg st op h)

lemma max_drawdown_le_applyOp (cfg : RiskConfig) (st : RiskState) (op : Op) :
    st.max_drawdown ≤ (applyOp cfg st op).max_drawdown := by
  cases op with
  | openPos s q e slp tpp =>
    show st.max_drawdown ≤ (open_position cfg st s q e slp tpp).2.max_drawdown
    unfold open_position
    dsimp only
    split_ifs <;> simp
  | closePos s e r =>
    show st.max_drawdown ≤ (close_position st s e r).2.max_drawdown
    cases hl : lookupPos st.positions s with
    | none => rw [close_position_none st s e r hl]
    | some pos =>
      rw [close_position_some st s e r pos hl]
      split_ifs <;> simp [le_max_left]
  | mark s p =>
    show st.max_drawdown ≤ (update_position_price st s p).max_drawdown
    exact le_of_eq (update_position_price_frame st s p).2.2.symm
  | trail s pct =>
    show st.max_drawdown ≤ (update_trailing_stop st s pct).max_drawdown
    exact le_of_eq (update_trailing_stop_frame st s pct).2.2.symm

lemma max_drawdown_le_runFrom (cfg : RiskConfig) (ops : List Op)
    (st : RiskState) : st.max_drawdown ≤ (runFrom cfg st ops).max_drawdown := by
  induction ops generalizing st with
  | nil => exact le_refl _
  | cons op ops ih =>
    exact le_trans (max_drawdown_le_applyOp cfg st op) (ih _)

lemma applyOp_peak_mdd_of_not_close (cfg : RiskConfig) (st : RiskState)
    (op : Op) (h : ¬ op.isClose) :
    (applyOp cfg st op).peak_capital = st.peak_capital ∧
    (applyOp cfg st op).max_drawdown = st.max_drawdown := by
  cases op with
  | openPos s q e slp tpp =>
    show (open_position cfg st s q e slp tpp).2.peak_capital = st.peak_capital ∧
      (open_position cfg st s q e slp tpp).2.max_drawdown = st.max_drawdown
    unfold open_position
    dsimp only
    split_ifs <;> exact ⟨rfl, rfl⟩
  | closePos s e r => exact absurd trivial h
  | mark s p =>
    exact ⟨(update_position_price_frame st s p).2.1,
      (update_position_price_frame st s p).2.2⟩
  | trail s pct =>
    exact ⟨(update_trailing_stop_frame st s pct).2.1,
      (update_trailing_stop_frame st s pct).2.2⟩

lemma markTrail_step (cfg : RiskConfig) (st : RiskState) (op : Op)
    (sym : String) (pos : Position) (hop : op.isMarkOrTrail)
    (hl : lookupPos st.positions sym = some pos) :
    ∃ pos₁, lookupPos (applyOp cfg st op).positions sym = some pos₁ ∧
      pos.stop_loss_price ≤ pos₁.stop_loss_price := by
  cases op with
  | openPos s q e slp tpp => exact absurd hop (by simp [Op.isMarkOrTrail])
  | closePos s e r => exact absurd hop (by simp [Op.isMarkOrTrail])
  | mark s p =>
    by_cases hs : sym = s
    · subst hs
      refine ⟨pos.update_pnl p, ?_, le_refl _⟩
      rw [show applyOp cfg st (Op.mark sym p) = update_position_price st sym p
          from rfl,
        update_position_price_lookup_self, hl]
      rfl
    · exact ⟨pos, by
        rw [show applyOp cfg st (Op.mark s p) = update_position_price st s p
            from rfl,
          update_position_price_lookup_ne st s sym p hs]
        exact hl, le_refl _⟩
  | trail s pct =>
    by_cases hs : sym = s
    · subst hs
      have hchar := update_trailing_stop_lookup_self st sym pct pos hl
      refine ⟨_, hchar, ?_⟩
      split_ifs with hc
      · exact le_of_lt hc
      · exact le_refl _
    · exact ⟨pos, by
        rw [show applyOp cfg st (Op.trail s pct) = update_trailing_stop st s pct
            from rfl,
          update_trailing_stop_lookup_ne st s sym pct hs]
        exact hl, le_refl _⟩

lemma markTrail_stop_mono (cfg : RiskConfig) (ops : List Op)
    (hops : ∀ op ∈ ops, op.isMarkOrTrail) (st : RiskState) (sym : String)
    (pos : Position) (hl : lookupPos st.positions sym = some pos) :
    ∃ pos', lookupPos (runFrom cfg st ops).positions sym = some pos' ∧
      pos.stop_loss_price ≤ pos'.stop_loss_price := by
  induction ops generalizing st pos with
  | nil => exact ⟨pos, hl, le_refl _⟩
  | cons op ops ih =>
    obtain ⟨pos₁, h₁, hle₁⟩ :=
      markTrail_step cfg st op sym pos (hops op (List.mem_cons_self op ops)) hl
    obtain ⟨pos', h', hle'⟩ :=
      ih (fun o ho => hops o (List.mem_cons_of_mem op ho)) (applyOp cfg st op)
        pos₁ h₁
    exact ⟨pos', h', le_trans hle₁ hle'⟩

/-! ### Concrete states used by the claim witnesses -/

/-- A concrete open position: VCB, 1000 shares at entry 100, stop 97. -/
def witnessPos : Position := Position.mk_open "VCB" 1000 100 100 97 none

/-- A concrete engine state holding one open position. -/
def witnessState : RiskState :=
  { positions := [("VCB", witnessPos)]
    current_capital := 99900000
    max_drawdown := 0
    peak_capital := 100000000 }

/-! ### Claim theorems -/

/-- C1: at most one open position per symbol, always.  For every sequence
of engine operations starting from the empty engine the keys of the
positions map are distinct; `can_open_position` returns `false` whenever
the symbol already has an open position; and `open_position` on a symbol
with an existing position returns `None` and leaves the state (hence the
existing entry) unchanged. -/
theorem at_most_one_position_per_symbol (cfg : RiskConfig) (ops : List Op)
    (st : RiskState) (sym : String) (pv : ℚ) (q : ℤ) (e : ℚ)
    (slp tpp : Option ℚ) :
    ((run cfg ops).positions.map Prod.fst).Nodup ∧
    ((lookupPos st.positions sym).isSome = true →
      (can_open_position cfg st sym pv).1 = false) ∧
    ((lookupPos st.positions sym).isSome = true →
      open_position cfg st sym q e slp tpp = (none, st)) :=
  ⟨nodup_runFrom cfg ops initialState (by simp [initialState]),
   can_open_false_of_mem cfg st sym pv,
   open_position_of_mem cfg st sym q e slp tpp⟩

theorem at_most_one_position_per_symbol_witness :
    ((run defaultConfig [Op.openPos "VCB" 1000 100 (some 97) none]).positions.map
      Prod.fst).Nodup ∧
    (can_open_position defaultConfig witnessState "VCB" 100000).1 = false ∧
    open_position defaultConfig witnessState "VCB" 1000 100 (some 97) none =
      (none, witnessState) := by
  have h := at_most_one_position_per_symbol defaultConfig
    [Op.openPos "VCB" 1000 100 (some 97) none] witnessState "VCB" 100000
    1000 100 (some 97) none
  exact ⟨h.1, h.2.1 (by simp [witnessState, lookupPos]),
    h.2.2 (by simp [witnessState, lookupPos])⟩

/-- C4: trailing-stop monotonicity.  Across any sequence of
`update_position_price` / `update_trailing_stop` calls (arbitrary prices
and trailing percentages) the stop of an open position never decreases,
and a single `update_trailing_stop` call sets the stop to
`current_price * (1 - trailing_pct)` exactly when that candidate is
strictly greater than the existing stop, leaving it unchanged
otherwise. -/
theorem trailing_stop_monotone (cfg : RiskConfig) (ops : List Op)
    (st : RiskState) (sym : String) (pos : Position) (pct : ℚ)
    (hops : ∀ op ∈ ops, op.isMarkOrTrail)
    (hl : lookupPos st.positions sym = some pos) :
    (∃ pos', lookupPos (runFrom cfg st ops).positions sym = some pos' ∧
      pos.stop_loss_price ≤ pos'.stop_loss_price) ∧
    lookupPos (update_trailing_stop st sym pct).positions sym =
      some (if pos.current_price * (1 - pct) > pos.stop_loss_price then
              { pos with stop_loss_price := pos.current_price * (1 - pct) }
            else pos) :=
  ⟨markTrail_stop_mono cfg ops hops st sym pos hl,
   update_trailing_stop_lookup_self st sym pct pos hl⟩

theorem trailing_stop_monotone_witness :
    (∃ pos', lookupPos (runFrom defaultConfig witnessState
        [Op.mark "VCB" 110, Op.trail "VCB" (5/100)]).positions "VCB" =
          some pos' ∧
      witnessPos.stop_loss_price ≤ pos'.stop_loss_price) ∧
    lookupPos (update_trailing_stop witnessState "VCB" (5/100)).positions
        "VCB" =
      some (if witnessPos.current_price * (1 - 5/100) >
              witnessPos.stop_loss_price then
              { witnessPos with
                stop_loss_price := witnessPos.current_price * (1 - 5/100) }
            else witnessPos) :=
  trailing_stop_monotone defaultConfig [Op.mark "VCB" 110, Op.trail "VCB" (5/100)]
    witnessState "VCB" witnessPos (5/100)
    (by intro op hop
        simp only [List.mem_cons, List.not_mem_nil, or_false] at hop
        rcases hop with rfl | rfl <;> trivial)
    (by simp [witnessState, lookupPos])

lemma close_position_fst_true (st : RiskState) (sym : String) (e : ℚ)
    (r : String) (pos : Position) (h : lookupPos st.positions sym = some pos) :
    (close_position st sym e r).1 = true := by
  rw [close_position_some st sym e r pos h]

lemma close_position_capital (st : RiskState) (sym : String) (e : ℚ)
    (r : String) (pos : Position) (h : lookupPos st.positions sym = some pos) :
    (close_position st sym e r).2.current_capital =
      st.current_capital + pos.quantity * e := by
  rw [close_position_some st sym e r pos h]
  split_ifs <;> rfl

/-- C5: drawdown is written only at close and is monotone.  Across any
operation sequence `max_drawdown` never decreases; `update_position_price`
(mark) changes no capital/peak/drawdown field and rewrites only the marked
position's `current_price`/`pnl`/`pnl_percent` (all other fields and all
other symbols' entries are untouched); every non-close operation preserves
`peak_capital` and `max_drawdown`; and when a close does not set a new
capital peak it sets
`max_drawdown := max(old, (peak - current) / peak)`. -/
theorem drawdown_monotone_and_close_only (cfg : RiskConfig) (ops : List Op)
    (st : RiskState) (sym t : String) (price exitp : ℚ) (op : Op)
    (pos : Position) (r : String) :
    st.max_drawdown ≤ (runFrom cfg st ops).max_drawdown ∧
    ((update_position_price st sym price).current_capital =
        st.current_capital ∧
      (update_position_price st sym price).peak_capital = st.peak_capital ∧
      (update_position_price st sym price).max_drawdown = st.max_drawdown) ∧
    (t ≠ sym →
      lookupPos (update_position_price st sym price).positions t =
        lookupPos st.positions t) ∧
    lookupPos (update_position_price st sym price).positions sym =
      (lookupPos st.positions sym).map (fun p => p.update_pnl price) ∧
    ((pos.update_pnl price).symbol = pos.symbol ∧
      (pos.update_pnl price).quantity = pos.quantity ∧
      (pos.update_pnl price).avg_entry_price = pos.avg_entry_price ∧
      (pos.update_pnl price).stop_loss_price = pos.stop_loss_price ∧
      (pos.update_pnl price).take_profit_price = pos.take_profit_price) ∧
    (¬ op.isClose →
      (applyOp cfg st op).peak_capital = st.peak_capital ∧
      (applyOp cfg st op).max_drawdown = st.max_drawdown) ∧
    (lookupPos st.positions sym = some pos →
      ¬ st.current_capital + pos.quantity * exitp > st.peak_capital →
      (close_position st sym exitp r).2.max_drawdown =
        max st.max_drawdown
          ((st.peak_capital - (st.current_capital + pos.quantity * exitp)) /
            st.peak_capital)) := by
  refine ⟨max_drawdown_le_runFrom cfg ops st,
    update_position_price_frame st sym price,
    fun ht => update_position_price_lookup_ne st sym t price ht,
    update_position_price_lookup_self st sym price,
    ⟨rfl, rfl, rfl, rfl, rfl⟩,
    applyOp_peak_mdd_of_not_close cfg st op,
    fun hl hpk => ?_⟩
  rw [close_position_some st sym exitp r pos hl, if_neg hpk]

theorem drawdown_monotone_and_close_only_witness :
    witnessState.max_drawdown ≤
      (runFrom defaultConfig witnessState [Op.mark "VCB" 90]).max_drawdown ∧
    (lookupPos (update_position_price witnessState "VCB" 90).positions "HPG" =
      lookupPos witnessState.positions "HPG") ∧
    ((applyOp defaultConfig witnessState (Op.mark "VCB" 90)).peak_capital =
        witnessState.peak_capital ∧
      (applyOp defaultConfig witnessState (Op.mark "VCB" 90)).max_drawdown =
        witnessState.max_drawdown) ∧
    (close_position witnessState "VCB" 90 "Stop Loss").2.max_drawdown =
      max witnessState.max_drawdown
        ((witnessState.peak_capital -
            (witnessState.current_capital + witnessPos.quantity * 90)) /
          witnessState.peak_capital) := by
  have h := drawdown_monotone_and_close_only defaultConfig
    [Op.mark "VCB" 90] witnessState "VCB" "HPG" 90 90 (Op.mark "VCB" 90)
    witnessPos "Stop Loss"
  refine ⟨h.1, h.2.2.1 (by simp), h.2.2.2.2.2.1 (by exact fun hh => hh), ?_⟩
  refine h.2.2.2.2.2.2 (by simp [witnessState, lookupPos]) ?_
  simp only [witnessState, witnessPos, Position.mk_open, Position.update_pnl]
  norm_num

/-! ### Scenario A state (spec §8): initial capital 100,000,000 -/

/-- Engine state with 100,000,000 VND capital and no positions. -/
def scenarioState : RiskState :=
  { positions := []
    current_capital := 100000000
    max_drawdown := 0
    peak_capital := 100000000 }

/-- State after `open(VCB, qty=1000, entry=100.0, stop=97.0)`. -/
def scenarioOpened : RiskState :=
  (open_position defaultConfig scenarioState "VCB" 1000 100 (some 97) none).2

/-- State after the subsequent `mark(VCB, 105.0)`. -/
def scenarioMarked : RiskState := update_position_price scenarioOpened "VCB" 105

/-- State after the final `close(VCB, 105.0)`. -/
def scenarioClosed : RiskState := (close_position scenarioMarked "VCB" 105 "").2

/-- The VCB position as it stands after the mark at 105. -/
def scenarioMarkedPos : Position :=
  { symbol := "VCB"
    quantity := 1000
    avg_entry_price := 100
    current_price := 105
    stop_loss_price := 97
    take_profit_price := none
    pnl := 5000
    pnl_percent := 5/100 }

lemma scenarioOpened_eq : scenarioOpened =
    { positions := [("VCB", Position.mk_open "VCB" 1000 100 100 97 none)]
      current_capital := 99900000
      max_drawdown := 0
      peak_capital := 100000000 } := by
  unfold scenarioOpened open_position can_open_position scenarioState defaultConfig
  norm_num [lookupPos, insertPos]

lemma scenarioMarked_eq : scenarioMarked =
    { positions := [("VCB", scenarioMarkedPos)]
      current_capital := 99900000
      max_drawdown := 0
      peak_capital := 100000000 } := by
  unfold scenarioMarked
  rw [scenarioOpened_eq]
  unfold update_position_price
  norm_num [lookupPos, insertPos, Position.mk_open, Position.update_pnl,
    scenarioMarkedPos]

lemma scenarioClosed_eq : scenarioClosed =
    { positions := []
      current_capital := 100005000
      max_drawdown := 0
      peak_capital := 100005000 } := by
  unfold scenarioClosed
  rw [scenarioMarked_eq]
  unfold close_position
  norm_num [lookupPos, erasePos, Position.update_pnl, scenarioMarkedPos]

/-- C2: exact capital accounting.  For any successful open followed by a
close of the same symbol, the capital after the close equals the capital
before the open plus `quantity * (exit_price - entry_price)`; and in the
concrete Scenario A (initial capital 100,000,000, open 1000 VCB at 100,
mark at 105, close at 105) the capital is 99,900,000 after the open, the
mark yields pnl 5,000 and pnl_percent 0.05, and the close leaves capital
100,005,000, peak 100,005,000 and max_drawdown 0. -/
theorem capital_conservation (cfg : RiskConfig) (st0 : RiskState)
    (sym : String) (q : ℤ) (entry exitp : ℚ) (slp tpp : Option ℚ)
    (pos : Position) (st1 : RiskState) (r : String)
    (hopen : open_position cfg st0 sym q entry slp tpp = (some pos, st1)) :
    ((close_position st1 sym exitp r).1 = true ∧
      (close_position st1 sym exitp r).2.current_capital =
        st0.current_capital + q * (exitp - entry)) ∧
    scenarioOpened.current_capital = 99900000 ∧
    (lookupPos scenarioMarked.positions "VCB").map Position.pnl =
      some 5000 ∧
    (lookupPos scenarioMarked.positions "VCB").map Position.pnl_percent =
      some (5/100) ∧
    scenarioClosed.current_capital = 100005000 ∧
    scenarioClosed.peak_capital = 100005000 ∧
    scenarioClosed.max_drawdown = 0 := by
  obtain ⟨hc, hpos, hst⟩ :=
    open_position_spec cfg st0 sym q entry slp tpp pos st1 hopen
  have hl : lookupPos st1.positions sym = some pos := by
    rw [hst]
    exact lookupPos_insertPos_self _ _ _
  have hq : pos.quantity = q := by
    rw [hpos]
    rfl
  refine ⟨⟨close_position_fst_true st1 sym exitp r pos hl, ?_⟩, ?_, ?_, ?_, ?_,
    ?_, ?_⟩
  · rw [close_position_capital st1 sym exitp r pos hl, hq, hst]
    push_cast
    ring
  · rw [scenarioOpened_eq]
  · rw [scenarioMarked_eq]
    simp [lookupPos, scenarioMarkedPos]
  · rw [scenarioMarked_eq]
    simp [lookupPos, scenarioMarkedPos]
  · rw [scenarioClosed_eq]
  · rw [scenarioClosed_eq]
  · rw [scenarioClosed_eq]

theorem capital_conservation_witness :
    ((close_position scenarioOpened "VCB" 105 "").1 = true ∧
      (close_position scenarioOpened "VCB" 105 "").2.current_capital =
        scenarioState.current_capital + 1000 * (105 - 100)) ∧
    scenarioOpened.current_capital = 99900000 ∧
    (lookupPos scenarioMarked.positions "VCB").map Position.pnl =
      some 5000 ∧
    (lookupPos scenarioMarked.positions "VCB").map Position.pnl_percent =
      some (5/100) ∧
    scenarioClosed.current_capital = 100005000 ∧
    scenarioClosed.peak_capital = 100005000 ∧
    scenarioClosed.max_drawdown = 0 := by
  refine capital_conservation defaultConfig scenarioState "VCB" 1000 100 105
    (some 97) none (Position.mk_open "VCB" 1000 100 100 97 none)
    scenarioOpened "" ?_
  have h1 : (open_position defaultConfig scenarioState "VCB" 1000 100
      (some 97) none).1 = some (Position.mk_open "VCB" 1000 100 100 97 none) := by
    unfold open_position can_open_position scenarioState defaultConfig
    norm_num [lookupPos]
  rw [← h1]
  rfl

/-- C3: at-most-once commit.  On each of the BUY, SELL and stop-loss
execution paths, if the gateway reports failure for the order the path
submits, then neither `open_position` nor `close_position` runs and the
Risk Engine state is returned exactly unchanged. -/
theorem order_failure_no_mutation (cfg : RiskConfig) (gw : Gateway)
    (st : RiskState) (sym : String) (entry exitp : ℚ) (r : String)
    (pos : Position) :
    (gw (buyOrderReq cfg st sym entry) = false →
      execute_buy cfg gw st sym entry = st) ∧
    (lookupPos st.positions sym = some pos →
      gw (sellOrderReq sym pos exitp) = false →
      execute_sell gw st sym exitp r = st) ∧
    (lookupPos st.positions sym = some pos →
      gw (stopOrderReq sym pos) = false →
      check_stop_loss gw st sym = (false, st)) := by
  refine ⟨fun hbuy => ?_, fun hl hsell => ?_, fun hl hstop => ?_⟩
  · unfold execute_buy
    dsimp only
    split_ifs with h1 h2 h3
    · rfl
    · rw [hbuy] at h3
      cases h3
    · rfl
    · rfl
  · unfold execute_sell
    rw [hl]
    simp [hsell]
  · unfold check_stop_loss
    rw [hl]
    dsimp only
    split_ifs with h1 h2
    · rw [hstop] at h2
      cases h2
    · rfl
    · rfl

theorem order_failure_no_mutation_witness :
    (execute_buy defaultConfig (fun _ => false) witnessState "HPG" 50 =
      witnessState) ∧
    (execute_sell (fun _ => false) witnessState "VCB" 105 "sig" =
      witnessState) ∧
    (check_stop_loss (fun _ => false) witnessState "VCB" =
      (false, witnessState)) := by
  have h := order_failure_no_mutation defaultConfig (fun _ => false)
    witnessState "VCB" 50 105 "sig" witnessPos
  have hb := order_failure_no_mutation defaultConfig (fun _ => false)
    witnessState "HPG" 50 105 "sig" witnessPos
  exact ⟨hb.1 rfl, h.2.1 (by simp [witnessState, lookupPos]) rfl,
    h.2.2 (by simp [witnessState, lookupPos]) rfl⟩

/-! ### Position-sizing lemmas -/

lemma pyInt_eq_floor {q : ℚ} (h : 0 ≤ q) : pyInt q = ⌊q⌋ := by
  unfold pyInt
  rw [if_neg (not_lt.mpr h)]

lemma pyInt_nonneg {q : ℚ} (h : 0 ≤ q) : 0 ≤ pyInt q := by
  rw [pyInt_eq_floor h]
  exact Int.floor_nonneg.mpr h

lemma calculate_position_size_of_zero_risk (cfg : RiskConfig) (st : RiskState)
    (sym : String) (entry stop : ℚ) (h : |entry - stop| = 0) :
    calculate_position_size cfg st sym entry stop = 0 := by
  unfold calculate_position_size
  rw [if_pos h]

lemma calculate_position_size_eq (cfg : RiskConfig) (st : RiskState)
    (sym : String) (entry stop : ℚ) (h : |entry - stop| ≠ 0) :
    calculate_position_size cfg st sym entry stop =
      (min (pyInt (st.current_capital * cfg.risk_per_trade / |entry - stop|))
        (pyInt (cfg.max_position_size / entry))).fdiv 100 * 100 := by
  unfold calculate_position_size
  rw [if_neg h]

lemma calculate_position_size_nonneg (cfg : RiskConfig) (st : RiskState)
    (sym : String) (entry stop : ℚ) (hcap : 0 ≤ st.current_capital)
    (hrpt : 0 ≤ cfg.risk_per_trade) (hmps : 0 ≤ cfg.max_position_size)
    (hentry : 0 < entry) :
    0 ≤ calculate_position_size cfg st sym entry stop := by
  by_cases h : |entry - stop| = 0
  · rw [calculate_position_size_of_zero_risk cfg st sym entry stop h]
  · rw [calculate_position_size_eq cfg st sym entry stop h]
    have h1 : 0 ≤ pyInt (st.current_capital * cfg.risk_per_trade /
        |entry - stop|) :=
      pyInt_nonneg (div_nonneg (mul_nonneg hcap hrpt) (abs_nonneg _))
    have h2 : 0 ≤ pyInt (cfg.max_position_size / entry) :=
      pyInt_nonneg (div_nonneg hmps hentry.le)
    exact mul_nonneg (Int.fdiv_nonneg (le_min h1 h2) (by norm_num))
      (by norm_num)

lemma calculate_position_size_dvd (cfg : RiskConfig) (st : RiskState)
    (sym : String) (entry stop : ℚ) :
    (100 : ℤ) ∣ calculate_position_size cfg st sym entry stop := by
  by_cases h : |entry - stop| = 0
  · rw [calculate_position_size_of_zero_risk cfg st sym entry stop h]
    exact dvd_zero 100
  · rw [calculate_position_size_eq cfg st sym entry stop h]
    exact dvd_mul_left 100 _

lemma calculate_position_size_value_le (cfg : RiskConfig) (st : RiskState)
    (sym : String) (entry stop : ℚ) (hmps : 0 ≤ cfg.max_position_size)
    (hentry : 0 < entry) :
    (calculate_position_size cfg st sym entry stop : ℚ) * entry ≤
      cfg.max_position_size := by
  by_cases h : |entry - stop| = 0
  · rw [calculate_position_size_of_zero_risk cfg st sym entry stop h]
    simpa using hmps
  · rw [calculate_position_size_eq cfg st sym entry stop h]
    set s := pyInt (st.current_capital * cfg.risk_per_trade / |entry - stop|)
    set m := pyInt (cfg.max_position_size / entry) with hm
    have hfdiv : (min s m).fdiv 100 * 100 ≤ min s m := by
      rw [Int.fdiv_eq_ediv _ (by norm_num : (0:ℤ) ≤ 100)]
      exact Int.ediv_mul_le _ (by norm_num)
    have hle : (min s m).fdiv 100 * 100 ≤ m :=
      le_trans hfdiv (min_le_right _ _)
    have hm' : (m : ℚ) ≤ cfg.max_position_size / entry := by
      rw [hm, pyInt_eq_floor (div_nonneg hmps hentry.le)]
      exact Int.floor_le _
    have hq : ((min s m).fdiv 100 * 100 : ℚ) ≤ cfg.max_position_size / entry :=
      le_trans (by exact_mod_cast hle) hm'
    push_cast at hq ⊢
    calc ((min s m).fdiv 100 : ℚ) * 100 * entry
        ≤ (cfg.max_position_size / entry) * entry :=
          mul_le_mul_of_nonneg_right hq hentry.le
      _ = cfg.max_position_size := div_mul_cancel₀ _ (ne_of_gt hentry)

/-- C6: position-sizing postcondition.  For positive entry price and
non-negative capital/config, `calculate_position_size` returns 0 on zero
risk per share, otherwise
`min(floor(risk_amount / risk_per_share), floor(max_position_size / entry))`
rounded down to the lot of 100; the result is a non-negative multiple of
100 whose value does not exceed `max_position_size`; and in Scenario B
(capital 100,000,000, risk 2%, entry 100, stop 97, cap 100,000,000) it is
666,600. -/
theorem position_sizing_postcondition (cfg : RiskConfig) (st : RiskState)
    (sym : String) (entry stop : ℚ) (hentry : 0 < entry)
    (hcap : 0 ≤ st.current_capital) (hrpt : 0 ≤ cfg.risk_per_trade)
    (hmps : 0 ≤ cfg.max_position_size) :
    (|entry - stop| = 0 → calculate_position_size cfg st sym entry stop = 0) ∧
    (|entry - stop| ≠ 0 →
      calculate_position_size cfg st sym entry stop =
        (min ⌊st.current_capital * cfg.risk_per_trade / |entry - stop|⌋
          ⌊cfg.max_position_size / entry⌋).fdiv 100 * 100) ∧
    0 ≤ calculate_position_size cfg st sym entry stop ∧
    (100 : ℤ) ∣ calculate_position_size cfg st sym entry stop ∧
    (calculate_position_size cfg st sym entry stop : ℚ) * entry ≤
      cfg.max_position_size ∧
    calculate_position_size defaultConfig scenarioState "X" 100 97 =
      666600 := by
  refine ⟨calculate_position_size_of_zero_risk cfg st sym entry stop,
    fun h => ?_,
    calculate_position_size_nonneg cfg st sym entry stop hcap hrpt hmps hentry,
    calculate_position_size_dvd cfg st sym entry stop,
    calculate_position_size_value_le cfg st sym entry stop hmps hentry, ?_⟩
  · rw [calculate_position_size_eq cfg st sym entry stop h,
      pyInt_eq_floor (div_nonneg (mul_nonneg hcap hrpt) (abs_nonneg _)),
      pyInt_eq_floor (div_nonneg hmps hentry.le)]
  · rw [calculate_position_size_eq defaultConfig scenarioState "X" 100 97
      (by norm_num)]
    have h1 : pyInt (scenarioState.current_capital *
        defaultConfig.risk_per_trade / |(100:ℚ) - 97|) = 666666 := by
      have he : scenarioState.current_capital * defaultConfig.risk_per_trade /
          |(100:ℚ) - 97| = 2000000/3 := by
        norm_num [scenarioState, defaultConfig]
      rw [he, pyInt_eq_floor (by norm_num), Int.floor_eq_iff]
      constructor <;> norm_num
    have h2 : pyInt (defaultConfig.max_position_size / (100:ℚ)) = 1000000 := by
      have he : defaultConfig.max_position_size / (100:ℚ) = 1000000 := by
        norm_num [defaultConfig]
      rw [he, pyInt_eq_floor (by norm_num)]
      exact Int.floor_intCast 1000000
    rw [h1, h2]
    decide

theorem position_sizing_postcondition_witness :
    ((|(100:ℚ) - 97| = 0 →
      calculate_position_size defaultConfig scenarioState "X" 100 97 = 0) ∧
    (|(100:ℚ) - 97| ≠ 0 →
      calculate_position_size defaultConfig scenarioState "X" 100 97 =
        (min ⌊scenarioState.current_capital * defaultConfig.risk_per_trade /
            |(100:ℚ) - 97|⌋
          ⌊defaultConfig.max_position_size / (100:ℚ)⌋).fdiv 100 * 100) ∧
    0 ≤ calculate_position_size defaultConfig scenarioState "X" 100 97 ∧
    (100 : ℤ) ∣ calculate_position_size defaultConfig scenarioState "X" 100 97 ∧
    (calculate_position_size defaultConfig scenarioState "X" 100 97 : ℚ) *
        100 ≤ defaultConfig.max_position_size ∧
    calculate_position_size defaultConfig scenarioState "X" 100 97 =
      666600) :=
  position_sizing_postcondition defaultConfig scenarioState "X" 100 97
    (by norm_num) (by norm_num [scenarioState]) (by norm_num [defaultConfig])
    (by norm_num [defaultConfig])

/-- C10: implicit safety of sizing.  Modelling Python's division-by-zero
as an explicit failure (`calculate_position_size_checked`), every call
with `entry_price > 0` succeeds and returns the total function's value,
which is non-negative under non-negative capital and config; with
`entry_price = 0` and a distinct stop price the unguarded
`max_position_size / entry_price` division fails, so the precondition is
required. -/
theorem sizing_division_safety (cfg : RiskConfig) (st : RiskState)
    (sym : String) (entry stop : ℚ) :
    (0 < entry →
      calculate_position_size_checked cfg st sym entry stop =
        some (calculate_position_size cfg st sym entry stop)) ∧
    (0 < entry → 0 ≤ st.current_capital → 0 ≤ cfg.risk_per_trade →
      0 ≤ cfg.max_position_size →
      0 ≤ calculate_position_size cfg st sym entry stop) ∧
    (|(0:ℚ) - stop| ≠ 0 →
      calculate_position_size_checked cfg st sym 0 stop = none) := by
  refine ⟨fun hentry => ?_, fun hentry hcap hrpt hmps =>
    calculate_position_size_nonneg cfg st sym entry stop hcap hrpt hmps hentry,
    fun h => ?_⟩
  · unfold calculate_position_size_checked
    by_cases h : |entry - stop| = 0
    · rw [if_pos h, calculate_position_size_of_zero_risk cfg st sym entry stop h]
    · rw [if_neg h, if_neg (ne_of_gt hentry)]
  · unfold calculate_position_size_checked
    rw [if_neg h, if_pos rfl]

theorem sizing_division_safety_witness :
    (calculate_position_size_checked defaultConfig scenarioState "X" 100 97 =
      some (calculate_position_size defaultConfig scenarioState "X" 100 97)) ∧
    0 ≤ calculate_position_size defaultConfig scenarioState "X" 100 97 ∧
    calculate_position_size_checked defaultConfig scenarioState "X" 0 97 =
      none := by
  have h := sizing_division_safety defaultConfig scenarioState "X" 100 97
  have h0 := sizing_division_safety defaultConfig scenarioState "X" 0 97
  exact ⟨h.1 (by norm_num),
    h.2.1 (by norm_num) (by norm_num [scenarioState])
      (by norm_num [defaultConfig]) (by norm_num [defaultConfig]),
    h0.2.2 (by norm_num)⟩

/-- C7: signal aggregation.  Given the per-tick strategy votes, any
CUTLOSS vote wins outright with STRONG strength; otherwise the majority
of BUY vs SELL votes decides, with strength STRONG for a winning count
of at least 3, MODERATE for at least 2 and WEAK for 1; a tie without a
CUTLOSS vote (including zero votes) yields HOLD. -/
theorem signal_aggregation (votes : List SignalType) :
    (SignalType.CUTLOSS ∈ votes →
      determineSignal votes = (SignalType.CUTLOSS, SignalStrength.STRONG)) ∧
    (SignalType.CUTLOSS ∉ votes →
      votes.count SignalType.SELL < votes.count SignalType.BUY →
      determineSignal votes =
        (SignalType.BUY,
          if votes.count SignalType.BUY ≥ 3 then SignalStrength.STRONG
          else if votes.count SignalType.BUY ≥ 2 then SignalStrength.MODERATE
          else SignalStrength.WEAK)) ∧
    (SignalType.CUTLOSS ∉ votes →
      votes.count SignalType.BUY < votes.count SignalType.SELL →
      determineSignal votes =
        (SignalType.SELL,
          if votes.count SignalType.SELL ≥ 3 then SignalStrength.STRONG
          else if votes.count SignalType.SELL ≥ 2 then SignalStrength.MODERATE
          else SignalStrength.WEAK)) ∧
    (SignalType.CUTLOSS ∉ votes →
      votes.count SignalType.BUY = votes.count SignalType.SELL →
      determineSignal votes = (SignalType.HOLD, SignalStrength.WEAK)) := by
  refine ⟨fun hmem => ?_, fun hno hgt => ?_, fun hno hgt => ?_,
    fun hno heq => ?_⟩
  · have hne : votes ≠ [] := List.ne_nil_of_mem hmem
    have hpos : votes.count SignalType.CUTLOSS > 0 :=
      List.count_pos_iff.mpr hmem
    unfold determineSignal
    rw [if_neg hne]
    dsimp only
    rw [if_pos hpos]
  · have hbpos : 0 < votes.count SignalType.BUY := lt_of_le_of_lt (Nat.zero_le _) hgt
    have hne : votes ≠ [] :=
      List.ne_nil_of_mem (List.count_pos_iff.mp hbpos)
    unfold determineSignal
    rw [if_neg hne]
    dsimp only
    rw [if_neg (by simp [List.count_eq_zero_of_not_mem hno]), if_pos hgt]
  · have hspos : 0 < votes.count SignalType.SELL := lt_of_le_of_lt (Nat.zero_le _) hgt
    have hne : votes ≠ [] :=
      List.ne_nil_of_mem (List.count_pos_iff.mp hspos)
    unfold determineSignal
    rw [if_neg hne]
    dsimp only
    rw [if_neg (by simp [List.count_eq_zero_of_not_mem hno]),
      if_neg (by omega), if_pos hgt]
  · by_cases hne : votes = []
    · rw [hne]
      rfl
    · unfold determineSignal
      rw [if_neg hne]
      dsimp only
      rw [if_neg (by simp [List.count_eq_zero_of_not_mem hno]),
        if_neg (by omega), if_neg (by omega)]

theorem signal_aggregation_witness :
    (determineSignal [SignalType.BUY, SignalType.CUTLOSS] =
      (SignalType.CUTLOSS, SignalStrength.STRONG)) ∧
    (determineSignal [SignalType.BUY, SignalType.BUY] =
      (SignalType.BUY, SignalStrength.MODERATE)) ∧
    (determineSignal [SignalType.SELL] =
      (SignalType.SELL, SignalStrength.WEAK)) ∧
    (determineSignal [SignalType.BUY, SignalType.SELL] =
      (SignalType.HOLD, SignalStrength.WEAK)) := by
  refine ⟨(signal_aggregation [SignalType.BUY, SignalType.CUTLOSS]).1
      (by decide), ?_, ?_, ?_⟩
  · have h := (signal_aggregation [SignalType.BUY, SignalType.BUY]).2.1
      (by decide) (by decide)
    rw [h]
    decide
  · have h := (signal_aggregation [SignalType.SELL]).2.2.1
      (by decide) (by decide)
    rw [h]
    decide
  · exact (signal_aggregation [SignalType.BUY, SignalType.SELL]).2.2.2
      (by decide) (by decide)

/-- C8: the claim says a price at or below 98% of a positive support
level appends a SELL vote; in the source the SELL branch is the `elif` of
`current_price <= support * 1.002`, which already captures every such
price, so the strategy appends a BUY vote instead (the SELL branch is
unreachable).  This theorem evaluates the code on that region. -/
theorem support_break_votes_buy (s p : ℚ) (hs : 0 < s)
    (hp : p ≤ s * (98/100)) :
    supportResistanceVotes true s p = [SignalType.BUY] := by
  unfold supportResistanceVotes
  rw [if_pos ⟨rfl, hs⟩]
  have h1 : p ≤ s * (1002/1000) :=
    le_trans hp (mul_le_mul_of_nonneg_left (by norm_num) hs.le)
  rw [if_pos h1]

theorem support_break_votes_buy_witness :
    supportResistanceVotes true 100 97 = [SignalType.BUY] :=
  support_break_votes_buy 100 97 (by norm_num) (by norm_num)

/-- C9 counterexample: the claim says a fresh WEAK non-HOLD signal still
has its identity added to the processed set; in the source the WEAK check
returns before `processed_signals.add`, so the set stays empty. -/
theorem weak_signal_identity_not_recorded :
    (("VCB", SignalType.BUY, (5:ℤ)) ∉
      (process_signal [] "VCB" SignalType.BUY SignalStrength.WEAK 5).2) ∧
    (process_signal [] "VCB" SignalType.BUY SignalStrength.WEAK 5).2 = [] := by
  constructor
  · simp [process_signal]
  · simp [process_signal]

/-- C9 (amended): a fresh WEAK signal causes no order execution and
leaves the processed-signals set exactly unchanged, so an identical WEAK
signal later in the same minute is re-evaluated (and discarded again by
the strength check, not by deduplication). -/
theorem weak_signal_skipped_without_dedup_record (processed : List SigId)
    (sym : String) (ty : SignalType) (strength : SignalStrength) (minute : ℤ)
    (hw : strength = SignalStrength.WEAK)
    (hnew : ((sym, ty, minute) : SigId) ∉ processed) :
    process_signal processed sym ty strength minute = (none, processed) := by
  unfold process_signal
  rw [if_neg hnew, if_pos hw]

theorem weak_signal_skipped_without_dedup_record_witness :
    process_signal [] "VCB" SignalType.BUY SignalStrength.WEAK 5 =
      (none, []) :=
  weak_signal_skipped_without_dedup_record [] "VCB" SignalType.BUY
    SignalStrength.WEAK 5 rfl (by simp)

end DNSE
